import Mathlib

/-!
Verification of the ffmpeg-repeater worker core against its specification.

The definitions below are a shallow embedding of the JavaScript source:

* `SupabaseJobManager.getAndClaimJob` (src/supabase.js) — job-claim protocol;
* `MediaProcessor.loopVideo` / `loopAudio` / `mergeVideoAudio` / `processMedia`
  / `cleanup` / `getVideoScaleFilter` / `getCompressionPresets` / `withPreset`
  (src/mediaProcessor.js, with the identical logic in
  src/media/VideoProcessor.js, AudioProcessor.js, MediaOrchestrator.js,
  FileManager.js and MediaProcessorFactory.js);
* `BackblazeUploader.uploadAndCleanup` (src/uploader.js) and
  `VideoRenderWorker.renderVideo` / `processAllJobs` (VideoRenderWorker.js).

Asynchronous database and ffmpeg effects are made explicit: the state of the
job table is passed as a list of rows (one snapshot per query, so races
between workers are expressible), fallible external calls are inputs of type
`Except`, and ffmpeg invocations are reified as the argument lists the code
builds (`FfmpegCommand`).
-/

/-- Job status values used by the worker.  The schema default is fresh;
the worker only ever reads waitingRender and writes rendering, rendered and
failed (src/supabase.js). -/
inductive JobStatus where
  | fresh
  | waitingRender
  | rendering
  | rendered
  | failed
deriving DecidableEq, Repr

/-- One row of the dark_channel_soundtrack_videos table, restricted to the
fields the worker reads or writes. -/
structure Job where
  id : Nat
  channelId : Nat
  inputVideoUrl : String
  soundtrackUrl : String
  lengthMinutes : Nat
  finalVideoUrl : Option String
  waitingNodeUrl : Option String
  status : JobStatus
deriving DecidableEq, Repr

/-- Predicate for the select in getAndClaimJob: status is waiting_render and
final_video_url is null (src/supabase.js lines 38 to 44). -/
def isClaimCandidate (j : Job) : Bool :=
  j.status = JobStatus.waitingRender && j.finalVideoUrl = none

/-- The select of getAndClaimJob: filter to claim candidates, order by id
ascending, limit 1.  Embedded as the candidate with the least id (first in
row order on ties). -/
def selectCandidate : List Job → Option Job
  | [] => none
  | j :: rest =>
    let best := selectCandidate rest
    if isClaimCandidate j then
      match best with
      | none => some j
      | some k => if j.id ≤ k.id then some j else some k
    else best

/-- The conditional write of getAndClaimJob: update the row to rendering via
eq id and eq status waiting_render (src/supabase.js lines 61 to 70).  Returns
the updated row, if any row matched, together with the new table state. -/
def conditionalUpdate (rows : List Job) (jid : Nat) : Option Job × List Job :=
  let hit := rows.find? fun r => r.id = jid ∧ r.status = JobStatus.waitingRender
  let newRows := rows.map fun r =>
    if r.id = jid ∧ r.status = JobStatus.waitingRender then
      { r with status := JobStatus.rendering }
    else r
  (hit.map fun r => { r with status := JobStatus.rendering }, newRows)

/-- Shallow embedding of SupabaseJobManager.getAndClaimJob.  `db1` is the
table at select time and `db2` the table at update time (a second worker may
have changed rows in between).  `fetchError` models a failing select,
`thrown` models any exception inside the try block; the surrounding catch
returns null in every failure mode (src/supabase.js lines 33 to 89). -/
def getAndClaimJob (fetchError thrown : Bool) (db1 db2 : List Job) :
    Option Job × List Job :=
  if thrown then (none, db2)
  else if fetchError then (none, db1)
  else
    match selectCandidate db1 with
    | none => (none, db1)
    | some job =>
      let (updated, db2') := conditionalUpdate db2 job.id
      match updated with
      | none => (none, db2')
      | some u => (some u, db2')

/-- Compression parameter bundle as stored in the preset registry
(src/mediaProcessor.js getCompressionPresets and the identical registry in
src/media/MediaProcessorFactory.js).  maxHeight, bframes and gopSize are
optional; a missing or zero value is falsy in the source. -/
structure CompressionSettings where
  crf : Nat
  preset : String
  maxHeight : Option Nat
  audioBitrate : String
  profile : String
  level : String
  bframes : Option Nat := none
  gopSize : Option Nat := none
deriving DecidableEq, Repr

/-- The preset registry, transcribed literally from the source. -/
def getCompressionPresets : String → Option CompressionSettings
  | "youtube-4k" => some
      { crf := 18, preset := "slow", maxHeight := some 2160,
        audioBitrate := "384k", profile := "high", level := "5.1",
        bframes := some 2, gopSize := some 12 }
  | "youtube-2k" => some
      { crf := 20, preset := "medium", maxHeight := some 1440,
        audioBitrate := "192k", profile := "high", level := "5.0",
        bframes := some 2, gopSize := some 12 }
  | "youtube-1080p" => some
      { crf := 23, preset := "medium", maxHeight := some 1080,
        audioBitrate := "128k", profile := "high", level := "4.2",
        bframes := some 2, gopSize := some 12 }
  | "youtube-720p" => some
      { crf := 26, preset := "medium", maxHeight := some 720,
        audioBitrate := "96k", profile := "high", level := "3.1",
        bframes := some 2, gopSize := some 12 }
  | "ultra" => some
      { crf := 18, preset := "slow", maxHeight := none,
        audioBitrate := "192k", profile := "high", level := "5.1" }
  | "high" => some
      { crf := 21, preset := "medium", maxHeight := some 1440,
        audioBitrate := "128k", profile := "high", level := "4.2" }
  | "medium" => some
      { crf := 23, preset := "medium", maxHeight := some 1080,
        audioBitrate := "96k", profile := "high", level := "4.0" }
  | "small" => some
      { crf := 28, preset := "fast", maxHeight := some 720,
        audioBitrate := "64k", profile := "main", level := "3.1" }
  | "tiny" => some
      { crf := 32, preset := "fast", maxHeight := some 480,
        audioBitrate := "48k", profile := "main", level := "3.0" }
  | _ => none

/-- Names present in the registry. -/
def presetNames : List String :=
  ["youtube-4k", "youtube-2k", "youtube-1080p", "youtube-720p",
   "ultra", "high", "medium", "small", "tiny"]

/-- Shallow embedding of MediaProcessor.withPreset and
MediaProcessorFactory.createWithPreset: look the name up in the registry and
throw on an unknown name, otherwise build the processor from exactly the
registered bundle (no default is substituted). -/
def createWithPreset (presetName : String) : Except String CompressionSettings :=
  match getCompressionPresets presetName with
  | none => Except.error ("Unknown compression preset: " ++ presetName)
  | some settings => Except.ok settings

/-- Probed video geometry as returned by getVideoInfo.  A probe that reports
no height yields height 0 (falsy in the source). -/
structure VideoInfo where
  width : Nat
  height : Nat
deriving DecidableEq, Repr

/-- Shallow embedding of MediaProcessor.getVideoScaleFilter (identical in
VideoProcessor.getVideoScaleFilter).  Returns the target dimensions of the
scale filter, or none when no scaling is applied.  JavaScript Math.round is
round half towards positive infinity, which is Mathlib round. -/
def getVideoScaleFilter (s : CompressionSettings) (info : VideoInfo) :
    Option (Int × Int) :=
  match s.maxHeight with
  | none => none
  | some mh =>
    if mh = 0 ∨ info.height = 0 then none
    else if mh < info.height then
      let aspectRatio : ℚ := (info.width : ℚ) / (info.height : ℚ)
      let newWidth : Int := round ((mh : ℚ) * aspectRatio)
      let evenWidth : Int := if newWidth % 2 = 0 then newWidth else newWidth - 1
      let evenHeight : Int := if (mh : Int) % 2 = 0 then (mh : Int) else (mh : Int) - 1
      some (evenWidth, evenHeight)
    else none

/-- Rendering of a scale filter pair as the ffmpeg filter string. -/
def scaleFilterString (p : Int × Int) : String :=
  "scale=" ++ toString p.1 ++ ":" ++ toString p.2

/-- An ffmpeg invocation as assembled by fluent-ffmpeg: input list, input
options, complex filters and output options, in the order the source pushes
them. -/
structure FfmpegCommand where
  inputs : List String
  inputOptions : List String
  complexFilter : List String
  outputOptions : List String
  output : String
deriving DecidableEq, Repr

/-- A loop invocation: the computed target duration and loop count together
with the assembled ffmpeg command. -/
structure LoopInvocation where
  targetDuration : Nat
  loops : Int
  cmd : FfmpegCommand
deriving DecidableEq, Repr

/-- The looping strategy observable from an assembled command: an explicit
concat filter means the N-way concatenate strategy, otherwise the native
stream_loop repeat strategy. -/
inductive Strategy where
  | streamRepeat
  | concatenate
deriving DecidableEq, Repr

/-- Strategy of an assembled loop command. -/
def strategyOf (c : FfmpegCommand) : Strategy :=
  if c.complexFilter.isEmpty then Strategy.streamRepeat else Strategy.concatenate

/-- Shallow embedding of MediaProcessor.loopVideo (identical logic in
VideoProcessor.loopVideo): compute target = minutes times 60 and
loops = ceil of target over the probed input duration, choose stream_loop
for loops above 10 and an explicit concat of loops inputs otherwise, then
append the encoder options ending the base list with the mandatory trim
option -t target, followed by the optional bframes, gopSize and scale
pushes. -/
def loopVideo (s : CompressionSettings) (info : VideoInfo) (inputPath : String)
    (durationMinutes : Nat) (inputDuration : ℚ) (outputPath : String) :
    LoopInvocation :=
  let targetDuration : Nat := durationMinutes * 60
  let loops : Int := ⌈(targetDuration : ℚ) / inputDuration⌉
  let baseOptions : List String :=
    ["-c:v libx264",
     "-preset", s.preset,
     "-crf", toString s.crf,
     "-profile:v", s.profile,
     "-level", s.level,
     "-pix_fmt yuv420p",
     "-movflags +faststart",
     "-threads 0",
     "-t", toString targetDuration]
  let extraOptions : List String :=
    (match s.bframes with
     | some b => if b = 0 then [] else ["-bf", toString b]
     | none => []) ++
    (match s.gopSize with
     | some g => if g = 0 then [] else ["-g", toString g]
     | none => []) ++
    (match getVideoScaleFilter s info with
     | some p => ["-vf", scaleFilterString p]
     | none => [])
  let cmd : FfmpegCommand :=
    if 10 < loops then
      { inputs := [inputPath],
        inputOptions := ["-stream_loop " ++ toString (loops - 1)],
        complexFilter := [],
        outputOptions := baseOptions ++ extraOptions,
        output := outputPath }
    else
      { inputs := List.replicate loops.toNat inputPath,
        inputOptions := [],
        complexFilter := ["concat=n=" ++ toString loops ++ ":v=1:a=0[outv]"],
        outputOptions := ["-map [outv]"] ++ baseOptions ++ extraOptions,
        output := outputPath }
  { targetDuration := targetDuration, loops := loops, cmd := cmd }

/-- Shallow embedding of MediaProcessor.loopAudio (AudioProcessor.loopAudio
is the same with the sample rate and channel count read from settings):
compute target and loops exactly as loopVideo does, then always use the
stream_loop input option, with the mandatory trim option -t target. -/
def loopAudio (inputPath : String) (durationMinutes : Nat)
    (inputDuration : ℚ) (outputPath : String) : LoopInvocation :=
  let targetDuration : Nat := durationMinutes * 60
  let loops : Int := ⌈(targetDuration : ℚ) / inputDuration⌉
  { targetDuration := targetDuration,
    loops := loops,
    cmd :=
      { inputs := [inputPath],
        inputOptions := ["-stream_loop " ++ toString (loops - 1)],
        complexFilter := [],
        outputOptions :=
          ["-c:a pcm_s16le", "-ar 48000", "-ac 2", "-t", toString targetDuration],
        output := outputPath } }

/-- Shallow embedding of MediaProcessor.mergeVideoAudio: copy the video
bitstream, re-encode audio to aac at the profile bitrate, and stop at the
shortest input. -/
def mergeVideoAudio (s : CompressionSettings) (videoPath audioPath outputPath : String) :
    FfmpegCommand :=
  { inputs := [videoPath, audioPath],
    inputOptions := [],
    complexFilter := [],
    outputOptions :=
      ["-c:v copy", "-c:a aac", "-b:a", s.audioBitrate,
       "-movflags +faststart", "-shortest"],
    output := outputPath }

/-- Observable trace of one run of the processMedia pipeline: the returned
or thrown result, the intermediate files the two loop branches actually
produced on disk, the files passed to cleanup, and whether the merge step
was invoked. -/
structure PipelineTrace where
  result : Except String String
  produced : List String
  cleaned : List String
  mergeAttempted : Bool
deriving Repr

/-- Joint await of the two loop promises, as Promise.all behaves: the pair
when both resolve, otherwise the rejection (both operations still run to
completion, so a resolved branch has produced its file either way). -/
def promiseAllPair (v a : Except String String) : Except String (String × String) :=
  match v, a with
  | Except.ok pv, Except.ok pa => Except.ok (pv, pa)
  | Except.error e, _ => Except.error e
  | _, Except.error e => Except.error e

/-- Shallow embedding of MediaProcessor.processMedia (identical logic in
MediaOrchestrator.processMedia).  `videoRes` and `audioRes` are the outcomes
of the two concurrent loop operations, `mergeRes` the outcome of the merge.
When Promise.all rejects, the destructuring assignment of loopedVideoPath
and loopedAudioPath never executes, so both locals are still null in the
catch block and its guard skips the cleanup call: `cleaned` is empty in that
case.  When the merge is reached, both paths are set and cleanup receives
them on the success path and on the catch path alike. -/
def processMedia (videoRes audioRes : Except String String)
    (mergeRes : String → String → Except String String) : PipelineTrace :=
  let produced := videoRes.toOption.toList ++ audioRes.toOption.toList
  match promiseAllPair videoRes audioRes with
  | Except.error e =>
    { result := Except.error e, produced := produced,
      cleaned := [], mergeAttempted := false }
  | Except.ok (vp, ap) =>
    match mergeRes vp ap with
    | Except.error e =>
      { result := Except.error e, produced := produced,
        cleaned := [vp, ap], mergeAttempted := true }
    | Except.ok out =>
      { result := Except.ok out, produced := produced,
        cleaned := [vp, ap], mergeAttempted := true }

/-- One pass of the cleanup loop (MediaProcessor.cleanup, identical in
FileManager.cleanup): for each path, if the path is truthy and exists,
remove it.  `throws` is an oracle for a failing fs.remove; the loop aborts
at the first failure, carrying the error to the surrounding catch. -/
def cleanupRun (throws : String → Bool) :
    List String → List String → List String × Option String
  | st, [] => (st, none)
  | st, p :: rest =>
    if p ≠ "" ∧ st.contains p then
      if throws p then (st, some "remove failed")
      else cleanupRun throws (st.filter (fun q => q != p)) rest
    else cleanupRun throws st rest

/-- Shallow embedding of MediaProcessor.cleanup: run the removal loop inside
a try block whose catch only logs, so the returned exception component is
always none.  The first component is the resulting file-system state. -/
def cleanup (throws : String → Bool) (st : List String) (paths : List String) :
    List String × Option String :=
  ((cleanupRun throws st paths).1, none)

/-- Upload result object as built by BackblazeUploader.uploadFile. -/
structure UploadResult where
  success : Bool
  url : String
  key : String
  size : Nat
deriving DecidableEq, Repr

/-- Shallow embedding of BackblazeUploader.validateUpload: the result is
truthy with truthy success, url and key fields. -/
def validateUpload (r : UploadResult) : Bool :=
  r.success && r.url != "" && r.key != ""

/-- Shallow embedding of BackblazeUploader.uploadAndCleanup.  `outcome` is
the result of uploadFile.  The second component records whether the local
artifact file was removed: cleanupLocalFile runs only after a validated
successful upload with keepLocal false; an upload error propagates with the
file left in place. -/
def uploadAndCleanup (outcome : Except String UploadResult) (keepLocal : Bool) :
    Except String UploadResult × Bool :=
  match outcome with
  | Except.error e => (Except.error e, false)
  | Except.ok r =>
    if validateUpload r then (Except.ok r, !keepLocal)
    else (Except.error "Upload validation failed", false)

/-- Observable trace of VideoRenderWorker.renderVideo for one job: whether
failJob was called, whether completeJob was called, whether the rendered
artifact was removed from local disk, and the propagated result. -/
structure RenderTrace where
  jobFailed : Bool
  jobCompleted : Bool
  artifactRemoved : Bool
  result : Except String String
deriving Repr

/-- Shallow embedding of VideoRenderWorker.renderVideo: validation, then
download, then processMedia, then uploadAndCleanup with keepLocal false,
then completeJob; any thrown error reaches the catch block, which calls
failJob and rethrows.  The catch does not touch the rendered artifact. -/
def renderVideo (validOk : Bool)
    (downloadRes : Except String (String × String))
    (processRes : Except String String)
    (uploadRes : Except String UploadResult) : RenderTrace :=
  if !validOk then
    { jobFailed := true, jobCompleted := false, artifactRemoved := false,
      result := Except.error "validation failed" }
  else
    match downloadRes with
    | Except.error e =>
      { jobFailed := true, jobCompleted := false, artifactRemoved := false,
        result := Except.error e }
    | Except.ok _paths =>
      match processRes with
      | Except.error e =>
        { jobFailed := true, jobCompleted := false, artifactRemoved := false,
          result := Except.error e }
      | Except.ok _outputPath =>
        match uploadAndCleanup uploadRes false with
        | (Except.error e, removed) =>
          { jobFailed := true, jobCompleted := false, artifactRemoved := removed,
            result := Except.error e }
        | (Except.ok r, removed) =>
          { jobFailed := false, jobCompleted := true, artifactRemoved := removed,
            result := Except.ok r.url }

/-- Sample settings used to instantiate theorems at concrete inputs: the
registry entry for the medium preset. -/
def sampleSettings : CompressionSettings :=
  { crf := 23, preset := "medium", maxHeight := some 1080,
    audioBitrate := "96k", profile := "high", level := "4.0" }

/-- Sample probed geometry at 1080p, used to instantiate theorems. -/
def sampleInfo : VideoInfo := { width := 1920, height := 1080 }

/-- Sample probed geometry at 4K, used to instantiate theorems. -/
def sampleInfo4k : VideoInfo := { width := 3840, height := 2160 }

/-- Sample validated upload result, used to instantiate theorems. -/
def sampleUpload : UploadResult :=
  { success := true, url := "https://cdn/out.mp4", key := "finals/out.mp4",
    size := 1024 }

/-- Sample queue row in waiting_render state, used to instantiate theorems. -/
def sampleJob : Job :=
  { id := 1, channelId := 7, inputVideoUrl := "http://v", soundtrackUrl := "http://a",
    lengthMinutes := 1, finalVideoUrl := none, waitingNodeUrl := none,
    status := JobStatus.waitingRender }

theorem getPresets_eq_none_of_not_mem (name : String)
    (h : name ∉ presetNames) : getCompressionPresets name = none := by
  unfold getCompressionPresets
  split <;> simp_all [presetNames]

/-- C9: resolving a compression profile by a name absent from the registry
throws at startup, and resolving any registered name returns exactly that
registered bundle, never a default. -/
theorem claim9_preset_resolution :
    (∀ name, name ∉ presetNames →
      createWithPreset name =
        Except.error ("Unknown compression preset: " ++ name)) ∧
    (∀ name, name ∈ presetNames →
      ∃ s, getCompressionPresets name = some s ∧
        createWithPreset name = Except.ok s) := by
  constructor
  · intro name h
    unfold createWithPreset
    rw [getPresets_eq_none_of_not_mem name h]
  · intro name h
    simp only [presetNames, List.mem_cons, List.mem_singleton] at h
    rcases h with rfl | rfl | rfl | rfl | rfl | rfl | rfl | rfl | rfl | h
    all_goals first
      | exact ⟨_, rfl, rfl⟩
      | simp at h

theorem claim9_preset_resolution_witness :
    ("bogus" ∉ presetNames ∧
      createWithPreset "bogus" = Except.error "Unknown compression preset: bogus") ∧
    ("youtube-1080p" ∈ presetNames ∧
      ∃ s, getCompressionPresets "youtube-1080p" = some s ∧
        createWithPreset "youtube-1080p" = Except.ok s) :=
  ⟨⟨by decide, claim9_preset_resolution.1 "bogus" (by decide)⟩,
   ⟨by decide, claim9_preset_resolution.2 "youtube-1080p" (by decide)⟩⟩

/-- C2 counterexample: an audio loop plan with loop count 2 (well below the
threshold) still uses the native stream-repeat strategy, because loopAudio
always attaches stream_loop and never builds a concat filter; the claim
requires concatenate for loops at most 10. -/
theorem claim2_counterexample :
    (loopAudio "audio.wav" 1 30 "looped.wav").loops = 2 ∧
    (loopAudio "audio.wav" 1 30 "looped.wav").loops ≤ 10 ∧
    strategyOf (loopAudio "audio.wav" 1 30 "looped.wav").cmd = Strategy.streamRepeat ∧
    Strategy.streamRepeat ≠ Strategy.concatenate := by
  have h2 : (loopAudio "audio.wav" 1 30 "looped.wav").loops = 2 := by
    simp only [loopAudio]
    rw [Int.ceil_eq_iff]
    norm_num
  refine ⟨h2, by rw [h2]; norm_num, ?_, by decide⟩
  simp [loopAudio, strategyOf]

/-- C2 amended: only the video loop selects its strategy by the threshold on
the loop count (at most 10 concatenates, above 10 repeats, so 10 uses
concatenate and 11 uses repeat); the audio loop always uses the native
stream-repeat strategy regardless of the loop count. -/
theorem claim2_strategy_threshold :
    (∀ s info ip m d op,
      strategyOf (loopVideo s info ip m d op).cmd =
        if 10 < (loopVideo s info ip m d op).loops then Strategy.streamRepeat
        else Strategy.concatenate) ∧
    (∀ ip m d op, strategyOf (loopAudio ip m d op).cmd = Strategy.streamRepeat) ∧
    (loopVideo sampleSettings sampleInfo "v.mp4" 1 6 "o.mp4").loops = 10 ∧
    strategyOf (loopVideo sampleSettings sampleInfo "v.mp4" 1 6 "o.mp4").cmd =
      Strategy.concatenate ∧
    (loopVideo sampleSettings sampleInfo "v.mp4" 1 (60 / 11) "o.mp4").loops = 11 ∧
    strategyOf (loopVideo sampleSettings sampleInfo "v.mp4" 1 (60 / 11) "o.mp4").cmd =
      Strategy.streamRepeat := by
  have hvideo : ∀ s info ip m d op,
      strategyOf (loopVideo s info ip m d op).cmd =
        if 10 < (loopVideo s info ip m d op).loops then Strategy.streamRepeat
        else Strategy.concatenate := by
    intro s info ip m d op
    simp only [loopVideo]
    split
    · next h => simp [strategyOf, h]
    · next h => simp [strategyOf, h]
  have h10 : (loopVideo sampleSettings sampleInfo "v.mp4" 1 6 "o.mp4").loops = 10 := by
    simp only [loopVideo]
    rw [Int.ceil_eq_iff]
    norm_num
  have h11 : (loopVideo sampleSettings sampleInfo "v.mp4" 1 (60 / 11) "o.mp4").loops = 11 := by
    simp only [loopVideo]
    rw [Int.ceil_eq_iff]
    norm_num
  refine ⟨hvideo, ?_, h10, ?_, h11, ?_⟩
  · intro ip m d op
    simp [loopAudio, strategyOf]
  · rw [hvideo, h10]; norm_num
  · rw [hvideo, h11]; norm_num

/-- C4: for positive source duration d and target minutes m, both looping
operations compute target = 60 times m and loops as the ceiling of
60 times m over d. -/
theorem claim4_loop_count_formula :
    ∀ (s : CompressionSettings) (info : VideoInfo) (ip op : String)
      (m : Nat) (d : ℚ), 0 < d →
      (loopVideo s info ip m d op).targetDuration = 60 * m ∧
      (loopVideo s info ip m d op).loops = ⌈(60 * m : ℚ) / d⌉ ∧
      (loopAudio ip m d op).targetDuration = 60 * m ∧
      (loopAudio ip m d op).loops = ⌈(60 * m : ℚ) / d⌉ := by
  intro s info ip op m d _hd
  have hcast : ((m * 60 : Nat) : ℚ) = 60 * m := by push_cast; ring
  refine ⟨by simp only [loopVideo]; ring, ?_, by simp only [loopAudio]; ring, ?_⟩
  · simp only [loopVideo, hcast]
  · simp only [loopAudio, hcast]

/-- C4 witness: the two spec examples, obtained by applying the formula at
d = 30 with m = 1 (target 60, loops 2) and d = 5 with m = 10 (target 600,
loops 120). -/
theorem claim4_loop_count_formula_witness :
    (0 : ℚ) < 30 ∧ (0 : ℚ) < 5 ∧
    (loopVideo sampleSettings sampleInfo "v.mp4" 1 30 "o.mp4").targetDuration = 60 ∧
    (loopVideo sampleSettings sampleInfo "v.mp4" 1 30 "o.mp4").loops = 2 ∧
    (loopAudio "a.wav" 10 5 "o.wav").targetDuration = 600 ∧
    (loopAudio "a.wav" 10 5 "o.wav").loops = 120 := by
  have h1 := claim4_loop_count_formula sampleSettings sampleInfo "v.mp4" "o.mp4" 1 30
    (by norm_num)
  have h2 := claim4_loop_count_formula sampleSettings sampleInfo "a.wav" "o.wav" 10 5
    (by norm_num)
  refine ⟨by norm_num, by norm_num, by rw [h1.1], ?_, by rw [h2.2.2.1], ?_⟩
  · rw [h1.2.1, Int.ceil_eq_iff]; norm_num
  · rw [h2.2.2.2, Int.ceil_eq_iff]; norm_num

/-- C5: every loop invocation, video or audio, for either strategy, carries
the explicit output trim option -t followed by the exact target duration of
60 times the requested minutes; the pair sits inside the assembled output
options unconditionally. -/
theorem claim5_trim_unconditional :
    ∀ (s : CompressionSettings) (info : VideoInfo) (ip op : String)
      (m : Nat) (d : ℚ),
      List.IsInfix ["-t", toString (m * 60)]
        (loopVideo s info ip m d op).cmd.outputOptions ∧
      List.IsInfix ["-t", toString (m * 60)]
        (loopAudio ip m d op).cmd.outputOptions := by
  intro s info ip op m d
  constructor
  · simp only [loopVideo]
    split
    · exact ⟨["-c:v libx264", "-preset", s.preset, "-crf", toString s.crf,
        "-profile:v", s.profile, "-level", s.level, "-pix_fmt yuv420p",
        "-movflags +faststart", "-threads 0"], _, rfl⟩
    · exact ⟨["-map [outv]", "-c:v libx264", "-preset", s.preset, "-crf", toString s.crf,
        "-profile:v", s.profile, "-level", s.level, "-pix_fmt yuv420p",
        "-movflags +faststart", "-threads 0"], _, rfl⟩
  · exact ⟨["-c:a pcm_s16le", "-ar 48000", "-ac 2"], [], by simp [loopAudio]⟩

/-- C7: with a positive configured maxHeight, the scale filter is applied
exactly when the probed height exceeds maxHeight; when applied, both output
dimensions are even, the output height never exceeds maxHeight, and the
output width is within 3 halves of the exact aspect-preserving width
maxHeight times width over height (Math.round plus the even adjustment);
when the probed height is at most maxHeight no scaling is applied. -/
theorem claim7_scale_filter_guard :
    ∀ (s : CompressionSettings) (info : VideoInfo) (mh : Nat),
      s.maxHeight = some mh → 0 < mh →
      ((getVideoScaleFilter s info).isSome ↔ mh < info.height) ∧
      (∀ w h, getVideoScaleFilter s info = some (w, h) →
        w % 2 = 0 ∧ h % 2 = 0 ∧ h ≤ (mh : Int) ∧
        |(w : ℚ) - (mh : ℚ) * (info.width : ℚ) / (info.height : ℚ)| ≤ 3 / 2) ∧
      (info.height ≤ mh → getVideoScaleFilter s info = none) := by
  intro s info mh hmh hpos
  have hmh0 : ¬ mh = 0 := by omega
  unfold getVideoScaleFilter
  rw [hmh]
  by_cases h0 : info.height = 0
  · simp only [h0, or_true, if_true]
    refine ⟨by simp, by simp, by simp⟩
  · simp only [hmh0, h0, or_self, if_false]
    by_cases hlt : mh < info.height
    · simp only [hlt, if_true]
      refine ⟨by simp [hlt], ?_, fun hle => absurd hlt (by omega)⟩
      intro w h heq
      simp only [Option.some_inj, Prod.mk.injEq] at heq
      obtain ⟨hw, hh⟩ := heq
      set x : ℚ := (mh : ℚ) * ((info.width : ℚ) / (info.height : ℚ)) with hxdef
      set nw : Int := round x with hnw
      have hround : |(nw : ℚ) - x| ≤ 1 / 2 := by
        rw [abs_sub_comm]; exact abs_sub_round x
      have hxgoal : x = (mh : ℚ) * (info.width : ℚ) / (info.height : ℚ) := by
        rw [hxdef, mul_div_assoc]
      refine ⟨?_, ?_, ?_, ?_⟩
      · rw [← hw]; by_cases he : nw % 2 = 0
        · simp only [he, if_true]
        · simp only [he, if_false]; omega
      · rw [← hh]; by_cases he : (mh : Int) % 2 = 0
        · simp only [he, if_true]
        · simp only [he, if_false]; omega
      · rw [← hh]; by_cases he : (mh : Int) % 2 = 0
        · simp only [he, if_true]; omega
        · simp only [he, if_false]; omega
      · rw [← hw, ← hxgoal]
        rw [abs_le] at hround ⊢
        by_cases he : nw % 2 = 0
        · simp only [he, if_true]
          exact ⟨by linarith [hround.1], by linarith [hround.2]⟩
        · simp only [he, if_false]
          push_cast
          exact ⟨by linarith [hround.1], by linarith [hround.2]⟩
    · simp only [hlt, if_false]
      refine ⟨by simp [hlt], by simp, by simp⟩

/-- C7 witness: the guard instantiated at the medium profile (maxHeight
1080) with a 4K probe (filter applied) and a 1080p probe (no filter). -/
theorem claim7_scale_filter_guard_witness :
    sampleSettings.maxHeight = some 1080 ∧ (0 < 1080) ∧
    ((getVideoScaleFilter sampleSettings sampleInfo4k).isSome ↔
      1080 < sampleInfo4k.height) ∧
    (sampleInfo.height ≤ 1080 →
      getVideoScaleFilter sampleSettings sampleInfo = none) :=
  ⟨rfl, by norm_num,
   (claim7_scale_filter_guard sampleSettings sampleInfo4k 1080 rfl (by norm_num)).1,
   (claim7_scale_filter_guard sampleSettings sampleInfo 1080 rfl (by norm_num)).2.2⟩

theorem cleanupRun_subset (throws : String → Bool) :
    ∀ (paths st : List String), (cleanupRun throws st paths).1 ⊆ st := by
  intro paths
  induction paths with
  | nil => intro st; exact fun a h => h
  | cons p rest ih =>
    intro st
    simp only [cleanupRun]
    split
    · split
      · exact fun a h => h
      · exact (ih _).trans (List.filter_subset' st)
    · exact ih st

theorem cleanupRun_idem (throws : String → Bool) :
    ∀ (paths st : List String),
      (cleanupRun throws (cleanupRun throws st paths).1 paths).1 =
        (cleanupRun throws st paths).1 := by
  intro paths
  induction paths with
  | nil => intro st; rfl
  | cons p rest ih =>
    intro st
    by_cases hg : p ≠ "" ∧ st.contains p
    · by_cases ht : throws p
      · simp only [cleanupRun, if_pos hg, if_pos ht]
      · simp only [cleanupRun, if_pos hg, if_neg ht]
        have hnot : p ∉ (cleanupRun throws (st.filter fun q => q != p) rest).1 := by
          intro hmem
          have := cleanupRun_subset throws rest (st.filter fun q => q != p) hmem
          simp [List.mem_filter] at this
        have hguard :
            ¬ (p ≠ "" ∧ (cleanupRun throws (st.filter fun q => q != p) rest).1.contains p) := by
          intro hcon
          exact hnot (by simpa [List.elem_iff] using hcon.2)
        simp only [cleanupRun, if_neg hguard]
        exact ih _
    · simp only [cleanupRun, if_neg hg]
      have hguard : ¬ (p ≠ "" ∧ (cleanupRun throws st rest).1.contains p) := by
        intro hcon
        apply hg
        refine ⟨hcon.1, ?_⟩
        have := cleanupRun_subset throws rest st (by simpa [List.elem_iff] using hcon.2)
        simpa [List.elem_iff] using this
      simp only [cleanupRun, if_neg hguard]
      exact ih st

theorem cleanupRun_removes (throws : String → Bool)
    (hok : ∀ q, throws q = false) :
    ∀ (paths st : List String) (p : String),
      p ∈ paths → p ≠ "" → p ∉ (cleanupRun throws st paths).1 := by
  intro paths
  induction paths with
  | nil => intro st p hp; cases hp
  | cons q rest ih =>
    intro st p hp hne
    rcases List.mem_cons.mp hp with rfl | hmem
    · by_cases hc : st.contains p
      · have hg : p ≠ "" ∧ st.contains p := ⟨hne, hc⟩
        simp only [cleanupRun, if_pos hg, hok p, if_neg Bool.false_ne_true]
        intro hmem2
        have := cleanupRun_subset throws rest (st.filter fun r => r != p) hmem2
        simp [List.mem_filter] at this
      · have hg : ¬ (p ≠ "" ∧ st.contains p) := fun hcon => hc hcon.2
        simp only [cleanupRun, if_neg hg]
        intro hmem2
        have := cleanupRun_subset throws rest st hmem2
        exact hc (by simpa [List.elem_iff] using this)
    · by_cases hg : q ≠ "" ∧ st.contains q
      · simp only [cleanupRun, if_pos hg, hok q, if_neg Bool.false_ne_true]
        exact ih _ p hmem hne
      · simp only [cleanupRun, if_neg hg]
        exact ih st p hmem hne

/-- C8: the cleanup call never lets an exception escape (the catch swallows
removal failures), a second invocation on the same paths is a no-op, and
when the underlying removals succeed no listed real path survives cleanup
whether it existed, never existed, or was already gone. -/
theorem claim8_cleanup_safe :
    ∀ (throws : String → Bool) (st paths : List String),
      (cleanup throws st paths).2 = none ∧
      (cleanup throws (cleanup throws st paths).1 paths).1 =
        (cleanup throws st paths).1 ∧
      ((∀ q, throws q = false) →
        ∀ p, p ∈ paths → p ≠ "" → p ∉ (cleanup throws st paths).1) := by
  intro throws st paths
  refine ⟨rfl, cleanupRun_idem throws paths st, ?_⟩
  intro hok p hp hne
  exact cleanupRun_removes throws hok paths st p hp hne

/-- C8 witness: cleanup of a present file, an absent file and an
already-removed duplicate, with removals succeeding: no exception, second
run is a no-op, and the listed file is gone. -/
theorem claim8_cleanup_safe_witness :
    (cleanup (fun _ => false) ["temp/a.mp4"] ["temp/a.mp4", "temp/never.mp4", "temp/a.mp4"]).2
      = none ∧
    (cleanup (fun _ => false)
        (cleanup (fun _ => false) ["temp/a.mp4"]
          ["temp/a.mp4", "temp/never.mp4", "temp/a.mp4"]).1
        ["temp/a.mp4", "temp/never.mp4", "temp/a.mp4"]).1 =
      (cleanup (fun _ => false) ["temp/a.mp4"]
        ["temp/a.mp4", "temp/never.mp4", "temp/a.mp4"]).1 ∧
    "temp/a.mp4" ∉
      (cleanup (fun _ => false) ["temp/a.mp4"]
        ["temp/a.mp4", "temp/never.mp4", "temp/a.mp4"]).1 := by
  have h := claim8_cleanup_safe (fun _ => false) ["temp/a.mp4"]
    ["temp/a.mp4", "temp/never.mp4", "temp/a.mp4"]
  exact ⟨h.1, h.2.1, h.2.2 (fun _ => rfl) "temp/a.mp4" (by decide) (by decide)⟩

theorem selectCandidate_none :
    ∀ (jobs : List Job), selectCandidate jobs = none →
      ∀ k ∈ jobs, isClaimCandidate k = false := by
  intro jobs
  induction jobs with
  | nil => intro _ k hk; cases hk
  | cons j rest ih =>
    intro h k hk
    simp only [selectCandidate] at h
    by_cases hc : isClaimCandidate j
    · rw [if_pos hc] at h
      cases hrest : selectCandidate rest with
      | none => rw [hrest] at h; cases h
      | some k0 =>
        rw [hrest] at h
        simp only at h
        by_cases hle : j.id ≤ k0.id
        · rw [if_pos hle] at h; cases h
        · rw [if_neg hle] at h; cases h
    · rw [if_neg hc] at h
      rcases List.mem_cons.mp hk with rfl | hmem
      · simpa using hc
      · exact ih h k hmem

theorem selectCandidate_spec :
    ∀ (jobs : List Job) (j : Job), selectCandidate jobs = some j →
      j ∈ jobs ∧ isClaimCandidate j = true ∧
        ∀ k ∈ jobs, isClaimCandidate k = true → j.id ≤ k.id := by
  intro jobs
  induction jobs with
  | nil => intro j h; cases h
  | cons j0 rest ih =>
    intro j h
    simp only [selectCandidate] at h
    by_cases hc : isClaimCandidate j0
    · rw [if_pos hc] at h
      cases hrest : selectCandidate rest with
      | none =>
        rw [hrest] at h
        simp only at h
        obtain rfl : j0 = j := Option.some.inj h
        refine ⟨List.mem_cons_self j0 rest, hc, ?_⟩
        intro k hk hck
        rcases List.mem_cons.mp hk with rfl | hmem
        · exact le_refl _
        · exact absurd hck (by simp [selectCandidate_none rest hrest k hmem])
      | some k0 =>
        rw [hrest] at h
        simp only at h
        by_cases hle : j0.id ≤ k0.id
        · rw [if_pos hle] at h
          obtain rfl : j0 = j := Option.some.inj h
          refine ⟨List.mem_cons_self j0 rest, hc, ?_⟩
          intro k hk hck
          rcases List.mem_cons.mp hk with rfl | hmem
          · exact le_refl _
          · exact hle.trans ((ih k0 hrest).2.2 k hmem hck)
        · rw [if_neg hle] at h
          obtain rfl : k0 = j := Option.some.inj h
          obtain ⟨hm, hcand, hmin⟩ := ih k0 hrest
          refine ⟨List.mem_cons_of_mem j0 hm, hcand, ?_⟩
          intro k hk hck
          rcases List.mem_cons.mp hk with rfl | hmem
          · omega
          · exact hmin k hmem hck
    · rw [if_neg hc] at h
      obtain ⟨hm, hcand, hmin⟩ := ih j h
      refine ⟨List.mem_cons_of_mem j0 hm, hcand, ?_⟩
      intro k hk hck
      rcases List.mem_cons.mp hk with rfl | hmem
      · exact absurd hck (by simpa using hc)
      · exact hmin k hmem hck

theorem conditionalUpdate_some (rows : List Job) (jid : Nat) (u : Job)
    (h : (conditionalUpdate rows jid).1 = some u) :
    ∃ r ∈ rows, r.id = jid ∧ r.status = JobStatus.waitingRender ∧
      u = { r with status := JobStatus.rendering } := by
  simp only [conditionalUpdate] at h
  cases hf : rows.find? (fun r =>
      decide (r.id = jid ∧ r.status = JobStatus.waitingRender)) with
  | none => rw [hf] at h; cases h
  | some r =>
    rw [hf] at h
    obtain rfl : { r with status := JobStatus.rendering } = u := Option.some.inj h
    have hmem := List.mem_of_find?_eq_some hf
    have hpred := List.find?_some hf
    have hp := of_decide_eq_true hpred
    exact ⟨r, hmem, hp.1, hp.2, rfl⟩

theorem conditionalUpdate_none (rows : List Job) (jid : Nat)
    (h : ∀ r ∈ rows, r.id = jid → r.status ≠ JobStatus.waitingRender) :
    (conditionalUpdate rows jid).1 = none := by
  simp only [conditionalUpdate]
  rw [List.find?_eq_none.mpr]
  · rfl
  · intro r hr
    simp only [decide_eq_true_eq, not_and]
    exact h r hr

/-- C1: a successful claim selects the least-id row that is waiting_render
with null final artifact at select time and flips a row that is still
waiting_render at write time to rendering; when the conditional write
matches no row (another worker claimed it in between), getAndClaimJob
returns no job instead of an error. -/
theorem claim1_claim_protocol :
    ∀ (db1 db2 : List Job),
      (∀ j st, getAndClaimJob false false db1 db2 = (some j, st) →
        ∃ c, selectCandidate db1 = some c ∧ c ∈ db1 ∧
          isClaimCandidate c = true ∧
          (∀ k ∈ db1, isClaimCandidate k = true → c.id ≤ k.id) ∧
          ∃ r ∈ db2, r.id = c.id ∧ r.status = JobStatus.waitingRender ∧
            j = { r with status := JobStatus.rendering }) ∧
      (∀ c, selectCandidate db1 = some c →
        (∀ r ∈ db2, r.id = c.id → r.status ≠ JobStatus.waitingRender) →
        getAndClaimJob false false db1 db2 =
          ((none : Option Job), (conditionalUpdate db2 c.id).2)) := by
  intro db1 db2
  constructor
  · intro j st h
    simp only [getAndClaimJob, Bool.false_eq_true, if_false] at h
    cases hsel : selectCandidate db1 with
    | none => rw [hsel] at h; cases h
    | some c =>
      rw [hsel] at h
      simp only at h
      cases hcu : (conditionalUpdate db2 c.id).1 with
      | none =>
        rw [hcu] at h
        simp at h
      | some u =>
        rw [hcu] at h
        simp only [Prod.mk.injEq, Option.some.injEq] at h
        obtain ⟨rfl, rfl⟩ := h
        obtain ⟨hm, hcand, hmin⟩ := selectCandidate_spec db1 c hsel
        obtain ⟨r, hr, hid, hst, hu⟩ := conditionalUpdate_some db2 c.id u hcu
        exact ⟨c, rfl, hm, hcand, hmin, r, hr, hid, hst, hu⟩
  · intro c hsel hrace
    have hnone := conditionalUpdate_none db2 c.id hrace
    simp only [getAndClaimJob, Bool.false_eq_true, if_false]
    rw [hsel]
    simp only
    rw [hnone]

/-- C1 witness: with one waiting row the claim succeeds and returns the row
flipped to rendering; when the same row is already rendering at write time
the conditional write matches nothing and getAndClaimJob returns none. -/
theorem claim1_claim_protocol_witness :
    (∃ c, selectCandidate [sampleJob] = some c ∧ c ∈ [sampleJob] ∧
      isClaimCandidate c = true ∧
      (∀ k ∈ [sampleJob], isClaimCandidate k = true → c.id ≤ k.id) ∧
      ∃ r ∈ [sampleJob], r.id = c.id ∧ r.status = JobStatus.waitingRender ∧
        { sampleJob with status := JobStatus.rendering } =
          { r with status := JobStatus.rendering }) ∧
    getAndClaimJob false false [sampleJob]
        [{ sampleJob with status := JobStatus.rendering }] =
      ((none : Option Job),
        (conditionalUpdate [{ sampleJob with status := JobStatus.rendering }]
          sampleJob.id).2) :=
  ⟨(claim1_claim_protocol [sampleJob] [sampleJob]).1
      { sampleJob with status := JobStatus.rendering }
      [{ sampleJob with status := JobStatus.rendering }] (by decide),
   (claim1_claim_protocol [sampleJob]
      [{ sampleJob with status := JobStatus.rendering }]).2 sampleJob
      (by decide) (by decide)⟩

/-- C10: every failure mode of getAndClaimJob — a thrown exception caught by
the catch block, a select error, no candidate row, or a conditional update
matching zero rows — yields none; no exception propagates to the polling
loop. -/
theorem claim10_claim_failure_modes :
    ∀ (fe th : Bool) (db1 db2 : List Job),
      (th = true → (getAndClaimJob fe th db1 db2).1 = none) ∧
      (fe = true → (getAndClaimJob fe th db1 db2).1 = none) ∧
      (selectCandidate db1 = none → (getAndClaimJob fe th db1 db2).1 = none) ∧
      (∀ c, selectCandidate db1 = some c →
        (conditionalUpdate db2 c.id).1 = none →
        (getAndClaimJob fe th db1 db2).1 = none) := by
  intro fe th db1 db2
  refine ⟨?_, ?_, ?_, ?_⟩
  · intro h; subst h; simp [getAndClaimJob]
  · intro h; subst h; cases th <;> simp [getAndClaimJob]
  · intro hsel
    cases th <;> cases fe <;> simp [getAndClaimJob, hsel]
  · intro c hsel hupd
    cases th <;> cases fe <;> simp [getAndClaimJob, hsel]
    all_goals
      rcases hcu : conditionalUpdate db2 c.id with ⟨upd, rows2⟩
    all_goals
      rw [hcu] at hupd
    all_goals
      simp only at hupd
    all_goals
      subst hupd
    all_goals
      simp [hcu]

/-- C10 witness: the four failure modes at concrete inputs all return
none. -/
theorem claim10_claim_failure_modes_witness :
    (getAndClaimJob false true [sampleJob] [sampleJob]).1 = none ∧
    (getAndClaimJob true false [sampleJob] [sampleJob]).1 = none ∧
    (getAndClaimJob false false [] []).1 = none ∧
    (getAndClaimJob false false [sampleJob] []).1 = none :=
  ⟨(claim10_claim_failure_modes false true [sampleJob] [sampleJob]).1 rfl,
   (claim10_claim_failure_modes true false [sampleJob] [sampleJob]).2.1 rfl,
   (claim10_claim_failure_modes false false [] []).2.2.1 rfl,
   (claim10_claim_failure_modes false false [sampleJob] []).2.2.2 sampleJob
     (by decide) (by decide)⟩

/-- C3: evaluation of the pipeline at a run where the video loop succeeds
(producing its intermediate file) and the audio loop fails.  The pipeline
fails as a unit and the merge is never attempted, as the claim states; but
the cleanup list is empty even though the video branch produced an
intermediate file: the rejected Promise.all means the looped paths were
never assigned, so the catch block guard sees only nulls and skips cleanup,
contradicting the cleanup half of the claim. -/
theorem claim3_loop_failure_no_cleanup :
    processMedia (Except.ok "temp/looped_video.mp4")
        (Except.error "audio loop failed")
        (fun vp _ => Except.ok vp) =
      { result := Except.error "audio loop failed",
        produced := ["temp/looped_video.mp4"],
        cleaned := [],
        mergeAttempted := false } ∧
    processMedia (Except.error "video loop failed")
        (Except.ok "temp/looped_audio.wav")
        (fun vp _ => Except.ok vp) =
      { result := Except.error "video loop failed",
        produced := ["temp/looped_audio.wav"],
        cleaned := [],
        mergeAttempted := false } := by
  constructor <;> rfl

/-- C6 counterexample: with validation, download and render all successful
and the upload failing, renderVideo fails the job but the local rendered
artifact is not removed, refuting the removal half of the claim. -/
theorem claim6_counterexample :
    (renderVideo true (Except.ok ("temp/v.mp4", "temp/a.wav"))
        (Except.ok "output/merged.mp4") (Except.error "upload failed")).jobFailed
      = true ∧
    ¬ ((renderVideo true (Except.ok ("temp/v.mp4", "temp/a.wav"))
        (Except.ok "output/merged.mp4")
        (Except.error "upload failed")).artifactRemoved = true) := by
  constructor <;> simp [renderVideo, uploadAndCleanup]

/-- C6 amended: when the publish fails after a successful render the job
fails and the error propagates, but the local rendered artifact is not
removed — removal happens only after a validated successful upload with
keepLocal false. -/
theorem claim6_publish_failure :
    ∀ (dl : String × String) (out e : String),
      ((renderVideo true (Except.ok dl) (Except.ok out)
          (Except.error e)).jobFailed = true ∧
        (renderVideo true (Except.ok dl) (Except.ok out)
          (Except.error e)).artifactRemoved = false ∧
        (renderVideo true (Except.ok dl) (Except.ok out)
          (Except.error e)).result = Except.error e) ∧
      (∀ r : UploadResult, validateUpload r = true →
        (renderVideo true (Except.ok dl) (Except.ok out)
          (Except.ok r)).artifactRemoved = true ∧
        (renderVideo true (Except.ok dl) (Except.ok out)
          (Except.ok r)).jobCompleted = true) := by
  intro dl out e
  constructor
  · refine ⟨?_, ?_, ?_⟩ <;> simp [renderVideo, uploadAndCleanup]
  · intro r hr
    constructor <;> simp [renderVideo, uploadAndCleanup, hr]

/-- C6 witness: the amended behavior at a concrete failing upload and a
concrete validated successful upload. -/
theorem claim6_publish_failure_witness :
    ((renderVideo true (Except.ok ("temp/v.mp4", "temp/a.wav"))
        (Except.ok "output/merged.mp4")
        (Except.error "network down")).jobFailed = true ∧
      (renderVideo true (Except.ok ("temp/v.mp4", "temp/a.wav"))
        (Except.ok "output/merged.mp4")
        (Except.error "network down")).artifactRemoved = false ∧
      (renderVideo true (Except.ok ("temp/v.mp4", "temp/a.wav"))
        (Except.ok "output/merged.mp4")
        (Except.error "network down")).result = Except.error "network down") ∧
    validateUpload sampleUpload = true ∧
    (renderVideo true (Except.ok ("temp/v.mp4", "temp/a.wav"))
        (Except.ok "output/merged.mp4")
        (Except.ok sampleUpload)).artifactRemoved = true :=
  ⟨(claim6_publish_failure ("temp/v.mp4", "temp/a.wav") "output/merged.mp4"
      "network down").1,
   by decide,
   ((claim6_publish_failure ("temp/v.mp4", "temp/a.wav") "output/merged.mp4"
      "network down").2 sampleUpload (by decide)).1⟩
